import Mathlib

/-!
# A shallow embedding of the DQN core (src/dqn.hpp)

The repository declares a Deep Q-Network agent: a bounded FIFO replay memory,
epsilon-greedy action selection, a cloned target network used to compute
bootstrap targets, and a minibatch update step.  The header `src/dqn.hpp`
fixes the constants, the data types and the constructor; the bodies of the
member functions are not among the sources, so they are modelled from the
specification (each such definition says so in its doc comment).

Numeric values (`float` rewards, `double` gamma, Q-values) are modelled over
`ℚ`; machine pseudo-randomness (`std::mt19937`) is modelled by an explicit
deterministic generator state threaded through every randomized operation.
-/

namespace DQNModel

/-! ## Constants (src/dqn.hpp lines 16-24) -/

def kRawFrameHeight : Nat := 210

def kRawFrameWidth : Nat := 160

def kCroppedFrameSize : Nat := 84

def kCroppedFrameDataSize : Nat := kCroppedFrameSize * kCroppedFrameSize

def kInputFrameCount : Nat := 4

def kInputDataSize : Nat := kCroppedFrameDataSize * kInputFrameCount

def kMinibatchSize : Nat := 32

def kMinibatchDataSize : Nat := kInputDataSize * kMinibatchSize

def kOutputCount : Nat := 18

/-! ## Data model (src/dqn.hpp lines 26-36) -/

/-- One preprocessed frame (`FrameData = std::array<uint8_t, ...>`); the
claims never inspect pixel values, only frame identity, so the intensity grid
is carried as a plain list of naturals. -/
structure FrameData where
  data : List Nat
deriving DecidableEq

/-- An ALE action.  The ALE enumeration has `kOutputCount = 18` members and
the tensor column of an action is its enumeration index. -/
abbrev Action := Fin kOutputCount

/-- `InputFrames = std::array<FrameDataSp, 4>`: the stacked input, oldest
frame first. -/
structure InputFrames where
  f0 : FrameData
  f1 : FrameData
  f2 : FrameData
  f3 : FrameData
deriving DecidableEq

/-- `Transition = std::tuple<InputFrames, Action, float, boost::optional<FrameDataSp>>`
(src/dqn.hpp lines 29-30), with the tuple components named after their roles:
`none` in `next` marks a terminal transition. -/
structure Transition where
  state : InputFrames
  action : Action
  reward : ℚ
  next : Option FrameData
deriving DecidableEq

/-- `ActionValue = std::pair<Action, float>` (src/dqn.hpp line 36). -/
abbrev ActionValue := Action × ℚ

/-- Modelled from the spec: the single agent-owned seeded pseudo-random
source (`std::mt19937 random_engine`, src/dqn.hpp line 112).  The mt19937
generation algorithm is not part of the sources; a deterministic 64-bit
linear congruential step stands in for it, which preserves the property the
spec relies on: the whole stream is a function of the seed, consumed
strictly sequentially. -/
structure RandomEngine where
  state : Nat
deriving DecidableEq

def RandomEngine.init (seed : Nat) : RandomEngine := ⟨seed⟩

/-- Advance the generator once and return a raw 64-bit value. -/
def randNext (g : RandomEngine) : Nat × RandomEngine :=
  let s := (6364136223846793005 * g.state + 1442695040888963407) % 2 ^ 64
  (s, ⟨s⟩)

/-- Modelled from the spec: one draw in `[0,1)`
(`std::uniform_real_distribution`), realized as a 32-bit value scaled into
the unit interval. -/
def drawUnit (g : RandomEngine) : ℚ × RandomEngine :=
  let p := randNext g
  (((p.1 % 2 ^ 32 : Nat) : ℚ) / ((2 ^ 32 : Nat) : ℚ), p.2)

/-- The value function is external to the core ("Value-Function Interface").
An evaluator maps a parameter set and one stacked input to the Q-value of
each action output. -/
abbrev QEval := List ℚ → InputFrames → Action → ℚ

/-- The optimizer step is external to the core: it maps the live parameters
and the three minibatch tensors to new parameters. -/
abbrev StepFn := List ℚ → List InputFrames →
  (Fin kMinibatchSize → Fin kOutputCount → ℚ) →
  (Fin kMinibatchSize → Fin kOutputCount → ℚ) → List ℚ

/-! ## Agent state (src/dqn.hpp lines 41-113) -/

/-- The `DQN` class state: configuration fixed at construction, the replay
deque (front = oldest), the live net and its clone (each as a parameter
list), the solver iteration counter and the random engine. -/
structure DQN where
  legal_actions_ : List Action
  solver_param_ : Nat
  replay_memory_capacity_ : Nat
  gamma_ : ℚ
  replay_memory_ : List Transition
  net_ : List ℚ
  clone_net_ : List ℚ
  solver_iter_ : Nat
  random_engine : RandomEngine
deriving DecidableEq

/-- The `DQN` constructor (src/dqn.hpp lines 43-52): stores the
configuration and seeds the random engine with the hard-coded constant `0`
(`random_engine(0)`); the seed is not a constructor parameter.  The nets are
empty until `Initialize`. -/
def mkDQN (legal_actions : List Action) (solver_param : Nat)
    (replay_memory_capacity : Nat) (gamma : ℚ) : DQN :=
  { legal_actions_ := legal_actions
    solver_param_ := solver_param
    replay_memory_capacity_ := replay_memory_capacity
    gamma_ := gamma
    replay_memory_ := []
    net_ := []
    clone_net_ := []
    solver_iter_ := 0
    random_engine := RandomEngine.init 0 }

/-- Modelled from the spec: `DQN::Initialize` (declared at src/dqn.hpp
line 55; its body is not among the sources).  The external solver supplies
the initial parameters of the value function, and the initial Target
Snapshot is created as a copy of the live value function. -/
def DQN.Initialize (d : DQN) (p : List ℚ) : DQN :=
  { d with net_ := p, clone_net_ := p }

/-- `memory_size` (src/dqn.hpp line 71): the replay deque's size. -/
def DQN.memory_size (d : DQN) : Nat := d.replay_memory_.length

/-- `current_iteration` (src/dqn.hpp line 72). -/
def DQN.current_iteration (d : DQN) : Nat := d.solver_iter_

/-! ## Experience store -/

/-- Modelled from the spec: FIFO trimming of the replay deque — "if
resulting size exceeds capacity C, removes from the head until size == C". -/
def trimFront (cap : Nat) (l : List Transition) : List Transition :=
  if h : l.length > cap then trimFront cap l.tail else l
termination_by l.length
decreasing_by
  simp only [List.length_tail]
  omega

/-- Modelled from the spec: `DQN::AddTransition` (declared at src/dqn.hpp
line 67; its body is not among the sources).  Spec 4.1 `insert`: always
succeeds, appends to the tail of the replay deque, then trims from the head
down to the configured capacity. -/
def DQN.AddTransition (d : DQN) (t : Transition) : DQN :=
  { d with replay_memory_ :=
      trimFront d.replay_memory_capacity_ (d.replay_memory_ ++ [t]) }

/-- A whole sequence of `AddTransition` calls, oldest first. -/
def addAll (d : DQN) (ts : List Transition) : DQN :=
  ts.foldl DQN.AddTransition d

/-! ## Target snapshot -/

/-- Modelled from the spec: `DQN::clonePrimaryNet` (declared at src/dqn.hpp
line 76; its body is not among the sources).  Spec 4.3 `synchronize`: copies
every parameter of the live value function into the Target Snapshot; the
copy is by value, so later mutation of `net_` does not touch `clone_net_`. -/
def DQN.clonePrimaryNet (d : DQN) : DQN :=
  { d with clone_net_ := d.net_ }

/-! ## Greedy selection -/

/-- Keep the incumbent unless the candidate's value is strictly larger:
the deterministic lowest-index tie-break of spec 4.2. -/
def betterAV (best cand : ActionValue) : ActionValue :=
  if cand.2 > best.2 then cand else best

/-- Modelled from the spec: `DQN::SelectActionGreedily` (single state,
declared at src/dqn.hpp line 80; its body is not among the sources).
Evaluates the state through the given parameter set restricted to the legal
actions and returns the best action together with its Q-value, breaking ties
toward the earlier action. -/
def SelectActionGreedily (evalQ : QEval) (params : List ℚ)
    (legal : List Action) (frames : InputFrames) : ActionValue :=
  match legal with
  | [] => (⟨0, by decide⟩, 0)
  | a :: rest =>
    rest.foldl (fun best a2 => betterAV best (a2, evalQ params frames a2))
      (a, evalQ params frames a)

/-- Modelled from the spec: the batched `DQN::SelectActionGreedily`
(src/dqn.hpp lines 83-84): one result per input state, in input order. -/
def SelectActionGreedilyBatch (evalQ : QEval) (params : List ℚ)
    (legal : List Action) (framesBatch : List InputFrames) : List ActionValue :=
  framesBatch.map (SelectActionGreedily evalQ params legal)

/-- Modelled from the spec: `DQN::SelectAction` (declared at src/dqn.hpp
line 64; its body is not among the sources).  Spec 4.2: draw one value in
`[0,1)`; below epsilon, explore with a uniformly random legal action (a
second draw from the same source); otherwise act greedily through the live
net.  Returns the action and the agent with its advanced engine. -/
def DQN.SelectAction (evalQ : QEval) (d : DQN) (frames : InputFrames)
    (epsilon : ℚ) : Action × DQN :=
  let p := drawUnit d.random_engine
  if p.1 < epsilon then
    let q := randNext p.2
    (d.legal_actions_.getD (q.1 % d.legal_actions_.length) ⟨0, by decide⟩,
     { d with random_engine := q.2 })
  else
    ((SelectActionGreedily evalQ d.net_ d.legal_actions_ frames).1,
     { d with random_engine := p.2 })

/-! ## Minibatch targets -/

/-- Successor stacked input of a non-terminal transition: drop the oldest
frame of `state`, append the new frame. -/
def shiftStack (s : InputFrames) (f : FrameData) : InputFrames :=
  { f0 := s.f1, f1 := s.f2, f2 := s.f3, f3 := f }

/-- The successor stacked inputs of the non-terminal transitions of a batch,
in batch order (spec 4.4 step 2). -/
def bootstrapSuccessors (batch : List Transition) : List InputFrames :=
  batch.filterMap (fun t => t.next.map (shiftStack t.state))

/-- Walk the batch pairing each transition with its target value, consuming
the batched bootstrap values in order: a terminal transition contributes its
bare reward, a non-terminal one `reward + gamma * v` where `v` is the next
unconsumed bootstrap value (spec 4.4 step 3). -/
def targetsGo (gamma : ℚ) : List Transition → List ℚ → List ℚ
  | [], _ => []
  | t :: ts, vs =>
    match t.next with
    | none => t.reward :: targetsGo gamma ts vs
    | some _ => (t.reward + gamma * vs.headD 0) :: targetsGo gamma ts vs.tail

/-- Modelled from the spec: the target value of every transition of a
minibatch, computed by `DQN::Update` — batch-evaluate the successors of the
non-terminal transitions through the Target Snapshot parameters, take their
maximal legal-action values, and combine with rewards. -/
def updateTargets (evalQ : QEval) (gamma : ℚ) (cloneParams : List ℚ)
    (legal : List Action) (batch : List Transition) : List ℚ :=
  targetsGo gamma batch
    ((SelectActionGreedilyBatch evalQ cloneParams legal
        (bootstrapSuccessors batch)).map Prod.snd)

/-! ## Minibatch tensors -/

/-- A minibatch-shaped tensor: `kMinibatchSize` rows (one per sample) by
`kOutputCount` action columns, the shape of `TargetLayerInputData` and
`FilterLayerInputData` (src/dqn.hpp lines 33-34). -/
abbrev BatchTensor := Fin kMinibatchSize → Fin kOutputCount → ℚ

def zeroTensor : BatchTensor := fun _ _ => 0

/-- Overwrite one entry of a tensor. -/
def writeEntry (T : BatchTensor) (i : Fin kMinibatchSize)
    (j : Fin kOutputCount) (v : ℚ) : BatchTensor :=
  fun i2 j2 => if i2 = i ∧ j2 = j then v else T i2 j2

/-- Write, row by row starting at row `i`, each listed value into the column
of its action. -/
def scatterRowsFrom (i : Nat) : List (Action × ℚ) → BatchTensor → BatchTensor
  | [], T => T
  | av :: rest, T =>
    scatterRowsFrom (i + 1) rest
      (if h : i < kMinibatchSize then writeEntry T ⟨i, h⟩ av.1 av.2 else T)

/-- Modelled from the spec (4.4 step 4): start from the all-zero tensor and,
for each sample, set the single entry in the column of its taken action. -/
def scatterRows (rows : List (Action × ℚ)) : BatchTensor :=
  scatterRowsFrom 0 rows zeroTensor

/-- The targets tensor of a minibatch: row `i` holds the computed target
value of transition `i` in the column of its taken action, 0 elsewhere. -/
def buildTargetTensor (batch : List Transition) (targets : List ℚ) :
    BatchTensor :=
  scatterRows ((batch.zip targets).map (fun p => (p.1.action, p.2)))

/-- The filter/mask tensor of a minibatch: row `i` holds 1 in the column of
transition `i`'s taken action, 0 elsewhere. -/
def buildFilterTensor (batch : List Transition) : BatchTensor :=
  scatterRows (batch.map (fun t => (t.action, 1)))

/-! ## Sampling -/

/-- Modelled from the spec (4.1 `sample`): draw `n` elements uniformly
without replacement — each step picks a uniformly random position of the
remaining pool, removes it, and recurses. -/
def sampleFrom : List Nat → Nat → RandomEngine → List Nat × RandomEngine
  | _, 0, g => ([], g)
  | pool, n + 1, g =>
    if pool.length = 0 then ([], g)
    else
      (pool.getD ((randNext g).1 % pool.length) 0 ::
        (sampleFrom (pool.eraseIdx ((randNext g).1 % pool.length)) n
          (randNext g).2).1,
       (sampleFrom (pool.eraseIdx ((randNext g).1 % pool.length)) n
         (randNext g).2).2)

/-- The `n` sampled replay-buffer positions for a buffer of the given size. -/
def sampleIndices (size n : Nat) (g : RandomEngine) :
    List Nat × RandomEngine :=
  sampleFrom (List.range size) n g

def defaultTransition : Transition :=
  { state := { f0 := ⟨[]⟩, f1 := ⟨[]⟩, f2 := ⟨[]⟩, f3 := ⟨[]⟩ }
    action := ⟨0, by decide⟩
    reward := 0
    next := none }

/-! ## Update -/

/-- The buffer positions `DQN::Update` samples for its minibatch, with the
advanced engine. -/
def updateSample (d : DQN) : List Nat × RandomEngine :=
  sampleIndices d.replay_memory_.length kMinibatchSize d.random_engine

/-- The minibatch of transitions read at the sampled positions. -/
def updateBatch (d : DQN) : List Transition :=
  (updateSample d).1.map (fun i => d.replay_memory_.getD i defaultTransition)

/-- Modelled from the spec: `DQN::Update` (declared at src/dqn.hpp line 70;
its body is not among the sources).  Spec 4.5 and 7: requires
`memory_size() >= kMinibatchSize`, rejecting an undersized buffer with an
explicit "insufficient memory" error; otherwise samples `kMinibatchSize`
transitions, builds the input/target/filter tensors, and triggers exactly
one optimizer step on the live net. -/
def DQN.Update (evalQ : QEval) (stepFn : StepFn) (d : DQN) :
    Except String DQN :=
  if d.memory_size < kMinibatchSize then Except.error "insufficient memory"
  else
    let batch := updateBatch d
    let targets := updateTargets evalQ d.gamma_ d.clone_net_ d.legal_actions_ batch
    Except.ok { d with
      net_ := stepFn d.net_ (batch.map Transition.state)
        (buildTargetTensor batch targets) (buildFilterTensor batch)
      solver_iter_ := d.solver_iter_ + 1
      random_engine := (updateSample d).2 }

/-- `Update` as a total state transformer: a rejected call leaves the agent
unchanged. -/
def updateStep (evalQ : QEval) (stepFn : StepFn) (d : DQN) : DQN :=
  match DQN.Update evalQ stepFn d with
  | Except.ok d2 => d2
  | Except.error _ => d

/-- `k` consecutive `Update` calls. -/
def updatesK (evalQ : QEval) (stepFn : StepFn) : Nat → DQN → DQN
  | 0, d => d
  | k + 1, d => updatesK evalQ stepFn k (updateStep evalQ stepFn d)

/-! ## Driving an agent through a call sequence -/

/-- One external call into the agent. -/
inductive DQNOp where
  | addT (t : Transition)
  | selectA (frames : InputFrames) (epsilon : ℚ)
  | updateQ
  | sync
deriving DecidableEq

/-- The observable outcome of one call: the selected action, or the sampled
minibatch positions (with whether the update was accepted). -/
inductive DQNObs where
  | unit
  | acted (a : Action)
  | trained (sampled : List Nat) (accepted : Bool)
deriving DecidableEq

def runOp (evalQ : QEval) (stepFn : StepFn) (d : DQN) :
    DQNOp → DQN × DQNObs
  | DQNOp.addT t => (d.AddTransition t, DQNObs.unit)
  | DQNOp.selectA frames eps =>
    let r := DQN.SelectAction evalQ d frames eps
    (r.2, DQNObs.acted r.1)
  | DQNOp.updateQ =>
    match DQN.Update evalQ stepFn d with
    | Except.ok d2 => (d2, DQNObs.trained (updateSample d).1 true)
    | Except.error _ => (d, DQNObs.trained [] false)
  | DQNOp.sync => (d.clonePrimaryNet, DQNObs.unit)

def runOps (evalQ : QEval) (stepFn : StepFn) :
    DQN → List DQNOp → DQN × List DQNObs
  | d, [] => (d, [])
  | d, op :: ops =>
    let r := runOp evalQ stepFn d op
    let rest := runOps evalQ stepFn r.1 ops
    (rest.1, r.2 :: rest.2)

/-! ## Replay-memory lemmas (C1) -/

theorem trimFront_eq_drop (cap : Nat) (l : List Transition) :
    trimFront cap l = l.drop (l.length - cap) := by
  induction l with
  | nil => rw [trimFront]; simp
  | cons a l ih =>
    rw [trimFront]
    by_cases h : (a :: l).length > cap
    · simp only [h, dif_pos, List.tail_cons, ih]
      simp only [List.length_cons] at h ⊢
      have hc : l.length + 1 - cap = (l.length - cap) + 1 := by omega
      rw [hc, List.drop_succ_cons]
    · simp only [h, dif_neg, not_false_iff]
      simp only [List.length_cons] at h ⊢
      have hc : l.length + 1 - cap = 0 := by omega
      rw [hc, List.drop_zero]

theorem addAll_spec (ts : List Transition) (d : DQN) :
    addAll d ts =
      { d with
          replay_memory_ :=
            ts.foldl
              (fun m t => trimFront d.replay_memory_capacity_ (m ++ [t]))
              d.replay_memory_ } := by
  induction ts generalizing d with
  | nil => simp [addAll]
  | cons t ts ih =>
    simp only [addAll, List.foldl_cons] at ih ⊢
    rw [ih]
    rfl

theorem foldl_trim_drop (cap : Nat) (ts : List Transition) :
    ∀ m : List Transition, m.length ≤ cap →
      ts.foldl (fun m t => trimFront cap (m ++ [t])) m =
        (m ++ ts).drop ((m ++ ts).length - cap) := by
  induction ts with
  | nil =>
    intro m hm
    simp only [List.foldl_nil, List.append_nil]
    rw [Nat.sub_eq_zero_of_le hm, List.drop_zero]
  | cons t ts ih =>
    intro m hm
    simp only [List.foldl_cons]
    rw [trimFront_eq_drop]
    have hk : (m ++ [t]).length - cap ≤ (m ++ [t]).length := Nat.sub_le _ _
    have hlen : ((m ++ [t]).drop ((m ++ [t]).length - cap)).length ≤ cap := by
      simp only [List.length_drop, List.length_append, List.length_cons,
        List.length_nil]
      omega
    rw [ih _ hlen]
    rw [← List.drop_append_of_le_length hk, List.drop_drop]
    have hassoc : (m ++ [t]) ++ ts = m ++ t :: ts := by
      simp [List.append_assoc]
    rw [hassoc]
    congr 1
    simp only [List.length_drop, List.length_append, List.length_cons,
      List.length_nil]
    omega

/-- C1: after any sequence of more than `C` insertions into a DQN built with
replay capacity `C`, the replay memory holds exactly the `C` most recent
transitions in insertion order and `memory_size` equals `C`; moreover every
insertion succeeds (`AddTransition` is total and the fold over any front
segment of the sequence is defined) and at every intermediate point
`memory_size` never exceeds `C`. -/
theorem AddTransition_fifo (la : List Action) (sp cap : Nat) (g : ℚ)
    (ts : List Transition) (h : cap < ts.length) :
    (addAll (mkDQN la sp cap g) ts).memory_size = cap ∧
    (addAll (mkDQN la sp cap g) ts).replay_memory_ =
      ts.drop (ts.length - cap) ∧
    ∀ pre suf, ts = pre ++ suf →
      (addAll (mkDQN la sp cap g) pre).memory_size ≤ cap := by
  have hmain : ∀ us : List Transition,
      (addAll (mkDQN la sp cap g) us).replay_memory_ =
        us.drop (us.length - cap) := by
    intro us
    rw [addAll_spec]
    simp only [mkDQN]
    rw [foldl_trim_drop cap us [] (by simp)]
    simp
  refine ⟨?_, hmain ts, ?_⟩
  · simp only [DQN.memory_size, hmain ts, List.length_drop]
    omega
  · intro pre suf _
    simp only [DQN.memory_size, hmain pre, List.length_drop]
    omega

/-- C1 witness: capacity 2, three insertions `T1, T2, T3` — the buffer ends
as `[T2, T3]` with size 2. -/
theorem AddTransition_fifo_witness :
    2 < ([{ defaultTransition with reward := 1 },
          { defaultTransition with reward := 2 },
          { defaultTransition with reward := 3 }] : List Transition).length ∧
    ((addAll (mkDQN [] 0 2 1)
        [{ defaultTransition with reward := 1 },
         { defaultTransition with reward := 2 },
         { defaultTransition with reward := 3 }]).memory_size = 2 ∧
      (addAll (mkDQN [] 0 2 1)
        [{ defaultTransition with reward := 1 },
         { defaultTransition with reward := 2 },
         { defaultTransition with reward := 3 }]).replay_memory_ =
        [{ defaultTransition with reward := 1 },
         { defaultTransition with reward := 2 },
         { defaultTransition with reward := 3 }].drop 1 ∧
      ∀ pre suf,
        [{ defaultTransition with reward := 1 },
         { defaultTransition with reward := 2 },
         { defaultTransition with reward := 3 }] = pre ++ suf →
        (addAll (mkDQN [] 0 2 1) pre).memory_size ≤ 2) :=
  ⟨by decide,
   AddTransition_fifo [] 0 2 1
     [{ defaultTransition with reward := 1 },
      { defaultTransition with reward := 2 },
      { defaultTransition with reward := 3 }] (by decide)⟩

/-! ## Target-snapshot lemmas (C2) -/

theorem Update_preserves_clone (evalQ : QEval) (stepFn : StepFn)
    (d d2 : DQN) (h : DQN.Update evalQ stepFn d = Except.ok d2) :
    d2.clone_net_ = d.clone_net_ := by
  unfold DQN.Update at h
  by_cases hm : d.memory_size < kMinibatchSize
  · simp [hm] at h
  · simp only [hm, if_neg, not_false_iff, Except.ok.injEq] at h
    rw [← h]

theorem updateStep_clone (evalQ : QEval) (stepFn : StepFn) (d : DQN) :
    (updateStep evalQ stepFn d).clone_net_ = d.clone_net_ := by
  unfold updateStep
  rcases hu : DQN.Update evalQ stepFn d with e | d2
  · rfl
  · exact Update_preserves_clone evalQ stepFn d d2 hu

theorem updatesK_clone (evalQ : QEval) (stepFn : StepFn) :
    ∀ (k : Nat) (d : DQN),
      (updatesK evalQ stepFn k d).clone_net_ = d.clone_net_ := by
  intro k
  induction k with
  | zero => intro d; rfl
  | succ k ih =>
    intro d
    rw [updatesK, ih, updateStep_clone]

/-- C2: `clonePrimaryNet` makes every parameter of the Target Snapshot equal
to the corresponding parameter of the live net, and the snapshot is
independently owned: after any number of subsequent `Update` calls the
snapshot's parameters are still the ones copied at synchronization time. -/
theorem clonePrimaryNet_snapshot (evalQ : QEval) (stepFn : StepFn)
    (d : DQN) :
    d.clonePrimaryNet.clone_net_ = d.net_ ∧
    ∀ k : Nat, (updatesK evalQ stepFn k d.clonePrimaryNet).clone_net_ =
      d.net_ := by
  refine ⟨rfl, fun k => ?_⟩
  rw [updatesK_clone]
  rfl

/-! ## Minibatch target lemmas (C3, C4) -/

theorem targetsGo_length (gamma : ℚ) :
    ∀ (batch : List Transition) (vs : List ℚ),
      (targetsGo gamma batch vs).length = batch.length := by
  intro batch
  induction batch with
  | nil => intro vs; rfl
  | cons t ts ih =>
    intro vs
    rcases ht : t.next with _ | f
    · simp [targetsGo, ht, ih]
    · simp [targetsGo, ht, ih]

theorem updateTargets_eq (evalQ : QEval) (gamma : ℚ) (cloneParams : List ℚ)
    (legal : List Action) (batch : List Transition) :
    updateTargets evalQ gamma cloneParams legal batch =
      targetsGo gamma batch
        ((bootstrapSuccessors batch).map
          (fun s => (SelectActionGreedily evalQ cloneParams legal s).2)) := by
  unfold updateTargets SelectActionGreedilyBatch
  rw [List.map_map]
  rfl

theorem targetsGo_boot (gamma : ℚ) (φ : InputFrames → ℚ) :
    ∀ (batch : List Transition) (i : Nat), i < batch.length →
      (targetsGo gamma batch ((bootstrapSuccessors batch).map φ)).getD i 0 =
        match (batch.getD i defaultTransition).next with
        | none => (batch.getD i defaultTransition).reward
        | some f => (batch.getD i defaultTransition).reward +
            gamma * φ (shiftStack (batch.getD i defaultTransition).state f) := by
  intro batch
  induction batch with
  | nil => intro i hi; simp at hi
  | cons t ts ih =>
    intro i hi
    rcases ht : t.next with _ | f
    · have hsucc : bootstrapSuccessors (t :: ts) = bootstrapSuccessors ts := by
        simp [bootstrapSuccessors, List.filterMap_cons, ht]
      rw [hsucc]
      match i with
      | 0 => simp [targetsGo, ht]
      | i + 1 =>
        simp only [targetsGo, ht, List.getD_cons_succ]
        exact ih i (by simpa using hi)
    · have hsucc : bootstrapSuccessors (t :: ts) =
          shiftStack t.state f :: bootstrapSuccessors ts := by
        simp [bootstrapSuccessors, List.filterMap_cons, ht]
      rw [hsucc]
      match i with
      | 0 => simp [targetsGo, ht]
      | i + 1 =>
        simp only [targetsGo, ht, List.map_cons, List.tail_cons,
          List.getD_cons_succ]
        exact ih i (by simpa using hi)

/-- C3: the target value `Update` computes for a terminal transition (its
optional next frame empty) is exactly that transition's reward, for every
discount factor in `[0,1]`: the bootstrap value of a terminal transition is
exactly 0. -/
theorem Update_target_terminal (evalQ : QEval) (cloneParams : List ℚ)
    (legal : List Action) (gamma : ℚ) (batch : List Transition) (i : Nat)
    (hi : i < batch.length) (hg0 : 0 ≤ gamma) (hg1 : gamma ≤ 1)
    (hterm : (batch.getD i defaultTransition).next = none) :
    (updateTargets evalQ gamma cloneParams legal batch).getD i 0 =
      (batch.getD i defaultTransition).reward := by
  rw [updateTargets_eq]
  have hb := targetsGo_boot gamma
    (fun s => (SelectActionGreedily evalQ cloneParams legal s).2) batch i hi
  rw [hterm] at hb
  exact hb

/-- C3 witness: one terminal transition with reward 7 and gamma 1/2 — its
computed target is 7. -/
theorem Update_target_terminal_witness :
    (0 : Nat) < ([{ defaultTransition with reward := 7 }] :
      List Transition).length ∧
    (0 : ℚ) ≤ 1 / 2 ∧ (1 : ℚ) / 2 ≤ 1 ∧
    (([{ defaultTransition with reward := 7 }] :
        List Transition).getD 0 defaultTransition).next = none ∧
    (updateTargets (fun ps _ a => ps.headD 0 + (a.val : ℚ)) (1 / 2) [3]
        [⟨0, by decide⟩, ⟨1, by decide⟩]
        [{ defaultTransition with reward := 7 }]).getD 0 0 =
      (([{ defaultTransition with reward := 7 }] :
        List Transition).getD 0 defaultTransition).reward :=
  ⟨by decide, by norm_num, by norm_num, by decide,
   Update_target_terminal (fun ps _ a => ps.headD 0 + (a.val : ℚ)) [3]
     [⟨0, by decide⟩, ⟨1, by decide⟩] (1 / 2)
     [{ defaultTransition with reward := 7 }] 0 (by decide)
     (by norm_num) (by norm_num) (by decide)⟩

/-! ## Greedy-selection lemmas (C4, C7) -/

theorem betterFold_spec (q : Action → ℚ) :
    ∀ (rest : List Action) (best : ActionValue),
      ((rest.foldl (fun b a2 => betterAV b (a2, q a2)) best) = best ∨
        ((rest.foldl (fun b a2 => betterAV b (a2, q a2)) best).1 ∈ rest ∧
         (rest.foldl (fun b a2 => betterAV b (a2, q a2)) best).2 =
           q (rest.foldl (fun b a2 => betterAV b (a2, q a2)) best).1)) ∧
      best.2 ≤ (rest.foldl (fun b a2 => betterAV b (a2, q a2)) best).2 ∧
      ∀ a ∈ rest, q a ≤ (rest.foldl (fun b a2 => betterAV b (a2, q a2)) best).2 := by
  intro rest
  induction rest with
  | nil => intro best; simp
  | cons a rest ih =>
    intro best
    simp only [List.foldl_cons]
    rcases ih (betterAV best (a, q a)) with ⟨hmem, hle, hall⟩
    have hstep : best.2 ≤ (betterAV best (a, q a)).2 ∧
        q a ≤ (betterAV best (a, q a)).2 ∧
        (betterAV best (a, q a) = best ∨ betterAV best (a, q a) = (a, q a)) := by
      unfold betterAV
      by_cases hq : q a > best.2
      · rw [if_pos hq]
        exact ⟨le_of_lt hq, le_refl _, Or.inr rfl⟩
      · rw [if_neg hq]
        exact ⟨le_refl _, le_of_not_lt hq, Or.inl rfl⟩
    refine ⟨?_, le_trans hstep.1 hle, ?_⟩
    · rcases hmem with hfix | ⟨hin, hval⟩
      · rcases hstep.2.2 with hb | hb
        · exact Or.inl (hfix.trans hb)
        · refine Or.inr ⟨?_, ?_⟩
          · rw [hfix, hb]; exact List.mem_cons_self a rest
          · rw [hfix, hb]
      · exact Or.inr ⟨List.mem_cons_of_mem a hin, hval⟩
    · intro a2 ha2
      rcases List.mem_cons.1 ha2 with rfl | ha2
      · exact le_trans hstep.2.1 hle
      · exact hall a2 ha2

theorem SelectActionGreedily_spec (evalQ : QEval) (params : List ℚ)
    (legal : List Action) (frames : InputFrames) (h : legal ≠ []) :
    (SelectActionGreedily evalQ params legal frames).1 ∈ legal ∧
    evalQ params frames (SelectActionGreedily evalQ params legal frames).1 =
      (SelectActionGreedily evalQ params legal frames).2 ∧
    ∀ a ∈ legal, evalQ params frames a ≤
      (SelectActionGreedily evalQ params legal frames).2 := by
  match legal with
  | [] => exact absurd rfl h
  | a :: rest =>
    have hdef : SelectActionGreedily evalQ params (a :: rest) frames =
        rest.foldl (fun b a2 => betterAV b (a2, evalQ params frames a2))
          (a, evalQ params frames a) := rfl
    rw [hdef]
    rcases betterFold_spec (evalQ params frames) rest (a, evalQ params frames a)
      with ⟨hmem, hle, hall⟩
    refine ⟨?_, ?_, ?_⟩
    · rcases hmem with hfix | ⟨hin, _⟩
      · rw [hfix]; exact List.mem_cons_self a rest
      · exact List.mem_cons_of_mem a hin
    · rcases hmem with hfix | ⟨_, hval⟩
      · rw [hfix]
      · exact hval.symm
    · intro a2 ha2
      rcases List.mem_cons.1 ha2 with rfl | ha2
      · exact hle
      · exact hall a2 ha2

/-- C4: for a non-terminal transition of the minibatch, the target value
`Update` computes is `reward + gamma * v`, where `v` is the value produced by
batch-greedy evaluation of the successor stacked input (state with its
oldest frame dropped and the next frame appended) through the Target
Snapshot parameters; `v` is the maximal legal-action value of that
successor, attained by some legal action. -/
theorem Update_target_nonterminal (evalQ : QEval) (cloneParams : List ℚ)
    (legal : List Action) (gamma : ℚ) (batch : List Transition) (i : Nat)
    (f : FrameData) (hi : i < batch.length) (hg0 : 0 ≤ gamma)
    (hg1 : gamma ≤ 1) (hlegal : legal ≠ [])
    (hnext : (batch.getD i defaultTransition).next = some f) :
    (updateTargets evalQ gamma cloneParams legal batch).getD i 0 =
      (batch.getD i defaultTransition).reward +
        gamma * (SelectActionGreedily evalQ cloneParams legal
          (shiftStack (batch.getD i defaultTransition).state f)).2 ∧
    (∀ a ∈ legal,
      evalQ cloneParams (shiftStack (batch.getD i defaultTransition).state f) a ≤
        (SelectActionGreedily evalQ cloneParams legal
          (shiftStack (batch.getD i defaultTransition).state f)).2) ∧
    (∃ a ∈ legal,
      evalQ cloneParams (shiftStack (batch.getD i defaultTransition).state f) a =
        (SelectActionGreedily evalQ cloneParams legal
          (shiftStack (batch.getD i defaultTransition).state f)).2) := by
  rcases SelectActionGreedily_spec evalQ cloneParams legal
    (shiftStack (batch.getD i defaultTransition).state f) hlegal
    with ⟨hin, hval, hmax⟩
  refine ⟨?_, hmax, ⟨_, hin, hval⟩⟩
  rw [updateTargets_eq]
  have hb := targetsGo_boot gamma
    (fun s => (SelectActionGreedily evalQ cloneParams legal s).2) batch i hi
  rw [hnext] at hb
  exact hb

/-- C4 witness: one non-terminal transition with reward 1, gamma 1/2, legal
actions `{0, 1}` and evaluator `a ↦ a` — the claim holds at this instance. -/
theorem Update_target_nonterminal_witness :
    (0 : Nat) < ([{ defaultTransition with reward := 1, next := some ⟨[5]⟩ }] :
      List Transition).length ∧
    (0 : ℚ) ≤ 1 / 2 ∧ (1 : ℚ) / 2 ≤ 1 ∧
    ([⟨0, by decide⟩, ⟨1, by decide⟩] : List Action) ≠ [] ∧
    (([{ defaultTransition with reward := 1, next := some ⟨[5]⟩ }] :
        List Transition).getD 0 defaultTransition).next = some ⟨[5]⟩ ∧
    ((updateTargets (fun _ _ a => (a.val : ℚ)) (1 / 2) []
        [⟨0, by decide⟩, ⟨1, by decide⟩]
        [{ defaultTransition with reward := 1, next := some ⟨[5]⟩ }]).getD 0 0 =
      (([{ defaultTransition with reward := 1, next := some ⟨[5]⟩ }] :
          List Transition).getD 0 defaultTransition).reward +
        (1 / 2) * (SelectActionGreedily (fun _ _ a => (a.val : ℚ)) []
          [⟨0, by decide⟩, ⟨1, by decide⟩]
          (shiftStack
            (([{ defaultTransition with reward := 1, next := some ⟨[5]⟩ }] :
              List Transition).getD 0 defaultTransition).state
            ⟨[5]⟩)).2) :=
  ⟨by decide, by norm_num, by norm_num, by decide, by decide,
   (Update_target_nonterminal (fun _ _ a => (a.val : ℚ)) []
     [⟨0, by decide⟩, ⟨1, by decide⟩] (1 / 2)
     [{ defaultTransition with reward := 1, next := some ⟨[5]⟩ }] 0 ⟨[5]⟩
     (by decide) (by norm_num) (by norm_num) (by decide) (by decide)).1⟩

/-! ## Tensor lemmas (C5, C10) -/

/-- Default row content used only to state `getD` characterizations. -/
def dAV : Action × ℚ := (⟨0, by decide⟩, 0)

theorem scatterStep_ne (T : BatchTensor) (a : Action) (v : ℚ) (i0 : Nat)
    (i : Fin kMinibatchSize) (j : Fin kOutputCount) (h : i.val ≠ i0) :
    (if h2 : i0 < kMinibatchSize then writeEntry T ⟨i0, h2⟩ a v else T) i j =
      T i j := by
  split
  · unfold writeEntry
    rw [if_neg]
    rintro ⟨hi, -⟩
    exact h (congrArg Fin.val hi)
  · rfl

theorem scatterStep_eq (T : BatchTensor) (a : Action) (v : ℚ) (i0 : Nat)
    (i : Fin kMinibatchSize) (j : Fin kOutputCount) (h : i.val = i0) :
    (if h2 : i0 < kMinibatchSize then writeEntry T ⟨i0, h2⟩ a v else T) i j =
      if a = j then v else T i j := by
  have h2 : i0 < kMinibatchSize := h ▸ i.isLt
  rw [dif_pos h2]
  unfold writeEntry
  have hii : i = ⟨i0, h2⟩ := Fin.ext h
  by_cases hj : j = a
  · rw [if_pos ⟨hii, hj⟩, if_pos hj.symm]
  · rw [if_neg (fun hc => hj hc.2), if_neg (fun hc => hj hc.symm)]

theorem scatterRowsFrom_spec :
    ∀ (rows : List (Action × ℚ)) (i0 : Nat) (T : BatchTensor)
      (i : Fin kMinibatchSize) (j : Fin kOutputCount),
      scatterRowsFrom i0 rows T i j =
        if i0 ≤ i.val ∧ i.val - i0 < rows.length ∧
            (rows.getD (i.val - i0) dAV).1 = j
        then (rows.getD (i.val - i0) dAV).2
        else T i j := by
  intro rows
  induction rows with
  | nil =>
    intro i0 T i j
    rw [if_neg]
    · rfl
    · rintro ⟨-, h2, -⟩
      simp at h2
  | cons av rest ih =>
    intro i0 T i j
    rw [show scatterRowsFrom i0 (av :: rest) T =
      scatterRowsFrom (i0 + 1) rest
        (if h2 : i0 < kMinibatchSize then writeEntry T ⟨i0, h2⟩ av.1 av.2
         else T) from rfl]
    rw [ih]
    rcases Nat.lt_trichotomy i.val i0 with hlt | heq | hgt
    · rw [if_neg (by rintro ⟨h1, -, -⟩; omega),
        if_neg (by rintro ⟨h1, -, -⟩; omega)]
      exact scatterStep_ne T av.1 av.2 i0 i j (by omega)
    · rw [if_neg (by rintro ⟨h1, -, -⟩; omega)]
      rw [scatterStep_eq T av.1 av.2 i0 i j heq]
      have h0 : i.val - i0 = 0 := by omega
      rw [h0]
      simp only [List.getD_cons_zero, List.length_cons]
      refine (if_congr ?_ rfl rfl).symm
      constructor
      · rintro ⟨-, -, hc⟩; exact hc
      · intro hc; exact ⟨by omega, by omega, hc⟩
    · rw [scatterStep_ne T av.1 av.2 i0 i j (by omega)]
      have hs : i.val - i0 = (i.val - (i0 + 1)) + 1 := by omega
      rw [hs]
      simp only [List.getD_cons_succ, List.length_cons]
      refine if_congr ?_ rfl rfl
      constructor
      · rintro ⟨h1, h2, hc⟩; exact ⟨by omega, by omega, hc⟩
      · rintro ⟨h1, h2, hc⟩; exact ⟨by omega, by omega, hc⟩

theorem buildFilterTensor_entry (batch : List Transition)
    (i : Fin kMinibatchSize) (j : Fin kOutputCount) :
    buildFilterTensor batch i j =
      if i.val < batch.length ∧
          (batch.getD i.val defaultTransition).action = j
      then 1 else 0 := by
  rw [buildFilterTensor, scatterRows, scatterRowsFrom_spec]
  simp only [Nat.sub_zero]
  by_cases hlen : i.val < batch.length
  · have hlt : i.val < (batch.map fun t => (t.action, (1 : ℚ))).length := by
      simpa using hlen
    rw [List.getD_eq_getElem _ _ hlt, List.getD_eq_getElem _ _ hlen]
    simp only [List.getElem_map, List.length_map]
    refine if_congr ?_ rfl rfl
    constructor
    · rintro ⟨-, -, hc⟩; exact ⟨hlen, hc⟩
    · rintro ⟨-, hc⟩; exact ⟨Nat.zero_le _, hlen, hc⟩
  · rw [if_neg, if_neg]
    · rfl
    · rintro ⟨hc, -⟩; exact hlen hc
    · rintro ⟨-, hc, -⟩
      rw [List.length_map] at hc
      exact hlen hc

theorem buildTargetTensor_entry (batch : List Transition) (targets : List ℚ)
    (ht : targets.length = batch.length)
    (i : Fin kMinibatchSize) (j : Fin kOutputCount) :
    buildTargetTensor batch targets i j =
      if i.val < batch.length ∧
          (batch.getD i.val defaultTransition).action = j
      then targets.getD i.val 0 else 0 := by
  rw [buildTargetTensor, scatterRows, scatterRowsFrom_spec]
  simp only [Nat.sub_zero]
  by_cases hlen : i.val < batch.length
  · have hzip : i.val < (batch.zip targets).length := by
      rw [List.length_zip]; omega
    have hlt : i.val <
        ((batch.zip targets).map fun p => (p.1.action, p.2)).length := by
      simpa using hzip
    have hts : i.val < targets.length := by omega
    rw [List.getD_eq_getElem _ _ hlt, List.getD_eq_getElem _ _ hlen,
      List.getD_eq_getElem _ _ hts]
    simp only [List.getElem_map, List.getElem_zip, List.length_map]
    refine if_congr ?_ rfl rfl
    constructor
    · rintro ⟨-, -, hc⟩; exact ⟨hlen, hc⟩
    · rintro ⟨-, hc⟩; exact ⟨Nat.zero_le _, hzip, hc⟩
  · rw [if_neg, if_neg]
    · rfl
    · rintro ⟨hc, -⟩; exact hlen hc
    · rintro ⟨-, hc, -⟩
      rw [List.length_map, List.length_zip] at hc
      omega

/-- C5: for a full minibatch, the targets tensor and the filter tensor (both
of minibatch-by-action-count shape by construction) are zero everywhere
except that row `i` holds the computed target value (respectively 1) in the
single column of transition `i`'s taken action; each filter row has exactly
one nonzero entry. -/
theorem Update_tensors_structure (batch : List Transition) (targets : List ℚ)
    (hb : batch.length = kMinibatchSize) (ht : targets.length = batch.length) :
    ∀ (i : Fin kMinibatchSize) (j : Fin kOutputCount),
      (buildTargetTensor batch targets i j =
        if j = (batch.getD i.val defaultTransition).action
        then targets.getD i.val 0 else 0) ∧
      (buildFilterTensor batch i j =
        if j = (batch.getD i.val defaultTransition).action then 1 else 0) ∧
      Finset.filter (fun j2 => buildFilterTensor batch i j2 ≠ 0) Finset.univ =
        {(batch.getD i.val defaultTransition).action} := by
  intro i j
  have hlen : i.val < batch.length := by rw [hb]; exact i.isLt
  refine ⟨?_, ?_, ?_⟩
  · rw [buildTargetTensor_entry batch targets ht]
    refine if_congr ?_ rfl rfl
    constructor
    · rintro ⟨-, hc⟩; exact hc.symm
    · intro hc; exact ⟨hlen, hc.symm⟩
  · rw [buildFilterTensor_entry]
    refine if_congr ?_ rfl rfl
    constructor
    · rintro ⟨-, hc⟩; exact hc.symm
    · intro hc; exact ⟨hlen, hc.symm⟩
  · ext j2
    simp only [Finset.mem_filter, Finset.mem_univ, true_and,
      Finset.mem_singleton]
    rw [buildFilterTensor_entry]
    constructor
    · intro hne
      by_contra hj2
      rw [if_neg] at hne
      · exact hne rfl
      · rintro ⟨-, hc⟩; exact hj2 hc.symm
    · intro hj2
      rw [if_pos ⟨hlen, hj2.symm⟩]
      norm_num

/-- C5 witness: a full minibatch of 32 copies of the default transition with
zero targets satisfies the tensor characterization. -/
theorem Update_tensors_structure_witness :
    (List.replicate 32 defaultTransition).length = kMinibatchSize ∧
    (List.replicate 32 (0 : ℚ)).length =
      (List.replicate 32 defaultTransition).length ∧
    Finset.filter
        (fun j2 => buildFilterTensor (List.replicate 32 defaultTransition)
          ⟨0, by decide⟩ j2 ≠ 0) Finset.univ =
      {((List.replicate 32 defaultTransition).getD 0
          defaultTransition).action} :=
  ⟨rfl, rfl,
   (Update_tensors_structure (List.replicate 32 defaultTransition)
     (List.replicate 32 0) rfl rfl ⟨0, by decide⟩ ⟨0, by decide⟩).2.2⟩

/-- C10: both minibatch tensors have exactly `kOutputCount = 18` action
columns per sample, a compile-time width independent of the legal action set
supplied at construction; every entry whose column is not the row's taken
action is 0, and in particular when every taken action lies in a legal set
that omits some column `j`, the whole column `j` is 0 in both tensors. -/
theorem tensors_fixed_columns (batch : List Transition) (targets : List ℚ)
    (ht : targets.length = batch.length) :
    kOutputCount = 18 ∧
    (∀ (i : Fin kMinibatchSize) (j : Fin kOutputCount),
      j ≠ (batch.getD i.val defaultTransition).action →
        buildTargetTensor batch targets i j = 0 ∧
        buildFilterTensor batch i j = 0) ∧
    (∀ (legal : List Action) (j : Fin kOutputCount),
      (∀ t ∈ batch, t.action ∈ legal) → j ∉ legal →
      ∀ i : Fin kMinibatchSize,
        buildTargetTensor batch targets i j = 0 ∧
        buildFilterTensor batch i j = 0) := by
  refine ⟨rfl, ?_, ?_⟩
  · intro i j hj
    constructor
    · rw [buildTargetTensor_entry batch targets ht, if_neg]
      rintro ⟨-, hc⟩; exact hj hc.symm
    · rw [buildFilterTensor_entry, if_neg]
      rintro ⟨-, hc⟩; exact hj hc.symm
  · intro legal j htaken hj i
    have hne : ¬ (i.val < batch.length ∧
        (batch.getD i.val defaultTransition).action = j) := by
      rintro ⟨hlen, hc⟩
      apply hj
      rw [← hc]
      refine htaken _ ?_
      rw [List.getD_eq_getElem _ _ hlen]
      exact List.getElem_mem hlen
    constructor
    · rw [buildTargetTensor_entry batch targets ht, if_neg hne]
    · rw [buildFilterTensor_entry, if_neg hne]

/-- C10 witness: a one-transition batch whose taken action is 0 — column 1
is 0 in both tensors, and the fixed column count is 18. -/
theorem tensors_fixed_columns_witness :
    ([(0 : ℚ)] : List ℚ).length = ([defaultTransition] :
      List Transition).length ∧
    kOutputCount = 18 ∧
    ((⟨1, by decide⟩ : Fin kOutputCount) ≠
      (([defaultTransition] : List Transition).getD 0
        defaultTransition).action ∧
     buildTargetTensor [defaultTransition] [0] ⟨0, by decide⟩
        ⟨1, by decide⟩ = 0 ∧
     buildFilterTensor [defaultTransition] ⟨0, by decide⟩
        ⟨1, by decide⟩ = 0) :=
  ⟨rfl, (tensors_fixed_columns [defaultTransition] [0] rfl).1,
   by decide,
   (tensors_fixed_columns [defaultTransition] [0] rfl).2.1 ⟨0, by decide⟩
     ⟨1, by decide⟩ (by decide)⟩

/-! ## Sampling lemmas (C6, C8) -/

theorem sampleFrom_length :
    ∀ (n : Nat) (pool : List Nat) (g : RandomEngine), n ≤ pool.length →
      (sampleFrom pool n g).1.length = n := by
  intro n
  induction n with
  | zero => intro pool g _; rfl
  | succ n ih =>
    intro pool g h
    have hpool : ¬ pool.length = 0 := by omega
    rw [sampleFrom, if_neg hpool]
    simp only [List.length_cons]
    rw [ih]
    rw [List.length_eraseIdx_of_lt]
    · omega
    · exact Nat.mod_lt _ (by omega)

theorem sampleFrom_mem :
    ∀ (n : Nat) (pool : List Nat) (g : RandomEngine) (x : Nat),
      x ∈ (sampleFrom pool n g).1 → x ∈ pool := by
  intro n
  induction n with
  | zero => intro pool g x hx; simp [sampleFrom] at hx
  | succ n ih =>
    intro pool g x hx
    by_cases hpool : pool.length = 0
    · rw [sampleFrom, if_pos hpool] at hx
      simp at hx
    · rw [sampleFrom, if_neg hpool] at hx
      have hi : (randNext g).1 % pool.length < pool.length :=
        Nat.mod_lt _ (by omega)
      rcases List.mem_cons.1 hx with rfl | hx
    -- the head is a pool element; the tail is sampled from a sublist
      · rw [List.getD_eq_getElem _ _ hi]
        exact List.getElem_mem hi
      · exact List.eraseIdx_subset _ _ (ih _ _ x hx)

theorem getElem_not_mem_eraseIdx (pool : List Nat) (i : Nat)
    (hi : i < pool.length) (hn : pool.Nodup) :
    pool[i] ∉ pool.eraseIdx i := by
  rw [← List.Nodup.erase_getElem hn i hi]
  exact List.Nodup.not_mem_erase hn

theorem sampleFrom_nodup :
    ∀ (n : Nat) (pool : List Nat) (g : RandomEngine), pool.Nodup →
      (sampleFrom pool n g).1.Nodup := by
  intro n
  induction n with
  | zero => intro pool g _; exact List.nodup_nil
  | succ n ih =>
    intro pool g hn
    by_cases hpool : pool.length = 0
    · rw [sampleFrom, if_pos hpool]
      exact List.nodup_nil
    · rw [sampleFrom, if_neg hpool]
      have hi : (randNext g).1 % pool.length < pool.length :=
        Nat.mod_lt _ (by omega)
      refine List.nodup_cons.2 ⟨?_, ?_⟩
      · intro hmem
        have hpoolmem := sampleFrom_mem _ _ _ _ hmem
        rw [List.getD_eq_getElem _ _ hi] at hpoolmem
        exact getElem_not_mem_eraseIdx pool _ hi hn hpoolmem
      · exact ih _ _ (List.Nodup.sublist (List.eraseIdx_sublist _ _) hn)

/-- C6: `Update` requires `memory_size() ≥ kMinibatchSize = 32`.  Under the
precondition the call succeeds, samples exactly 32 transitions and triggers
exactly one optimizer step (one `stepFn` application, solver iteration +1);
when the precondition fails the call is rejected with the explicit
"insufficient memory" error and never proceeds with an undersized batch. -/
theorem Update_precondition (evalQ : QEval) (stepFn : StepFn) (d : DQN) :
    (kMinibatchSize ≤ d.memory_size →
      DQN.Update evalQ stepFn d =
        Except.ok { d with
            net_ := stepFn d.net_ ((updateBatch d).map Transition.state)
              (buildTargetTensor (updateBatch d)
                (updateTargets evalQ d.gamma_ d.clone_net_ d.legal_actions_
                  (updateBatch d)))
              (buildFilterTensor (updateBatch d))
            solver_iter_ := d.solver_iter_ + 1
            random_engine := (updateSample d).2 } ∧
      (updateBatch d).length = kMinibatchSize) ∧
    (d.memory_size < kMinibatchSize →
      DQN.Update evalQ stepFn d = Except.error "insufficient memory") := by
  constructor
  · intro h
    constructor
    · unfold DQN.Update
      rw [if_neg (not_lt.2 h)]
    · unfold updateBatch
      rw [List.length_map]
      unfold updateSample sampleIndices
      exact sampleFrom_length _ _ _ (by simpa using h)
  · intro h
    unfold DQN.Update
    rw [if_pos h]

/-- C6 witness: an agent whose replay memory holds exactly 32 transitions —
`Update` succeeds and the sampled batch has 32 elements. -/
theorem Update_precondition_witness :
    kMinibatchSize ≤
      ({ mkDQN [] 0 100 1 with
          replay_memory_ := List.replicate 32 defaultTransition } :
        DQN).memory_size ∧
    (DQN.Update (fun _ _ _ => 0) (fun ps _ _ _ => ps)
        { mkDQN [] 0 100 1 with
            replay_memory_ := List.replicate 32 defaultTransition } =
      Except.ok { ({ mkDQN [] 0 100 1 with
            replay_memory_ := List.replicate 32 defaultTransition } : DQN) with
          net_ := (fun (ps : List ℚ) (_ : List InputFrames)
              (_ : BatchTensor) (_ : BatchTensor) => ps)
            ({ mkDQN [] 0 100 1 with
                replay_memory_ := List.replicate 32 defaultTransition } :
              DQN).net_
            ((updateBatch { mkDQN [] 0 100 1 with
                replay_memory_ := List.replicate 32 defaultTransition }).map
              Transition.state)
            (buildTargetTensor
              (updateBatch { mkDQN [] 0 100 1 with
                replay_memory_ := List.replicate 32 defaultTransition })
              (updateTargets (fun _ _ _ => 0)
                ({ mkDQN [] 0 100 1 with
                    replay_memory_ := List.replicate 32 defaultTransition } :
                  DQN).gamma_
                ({ mkDQN [] 0 100 1 with
                    replay_memory_ := List.replicate 32 defaultTransition } :
                  DQN).clone_net_
                ({ mkDQN [] 0 100 1 with
                    replay_memory_ := List.replicate 32 defaultTransition } :
                  DQN).legal_actions_
                (updateBatch { mkDQN [] 0 100 1 with
                  replay_memory_ := List.replicate 32 defaultTransition })))
            (buildFilterTensor
              (updateBatch { mkDQN [] 0 100 1 with
                replay_memory_ := List.replicate 32 defaultTransition }))
          solver_iter_ :=
            ({ mkDQN [] 0 100 1 with
                replay_memory_ := List.replicate 32 defaultTransition } :
              DQN).solver_iter_ + 1
          random_engine :=
            (updateSample { mkDQN [] 0 100 1 with
              replay_memory_ := List.replicate 32 defaultTransition }).2 } ∧
      (updateBatch { mkDQN [] 0 100 1 with
          replay_memory_ := List.replicate 32 defaultTransition }).length =
        kMinibatchSize) :=
  ⟨by decide,
   (Update_precondition (fun _ _ _ => 0) (fun ps _ _ _ => ps)
     { mkDQN [] 0 100 1 with
         replay_memory_ := List.replicate 32 defaultTransition }).1
     (by decide)⟩

/-- C8: within one `Update` call the minibatch is sampled without
replacement — the sampled buffer positions are pairwise distinct, there are
exactly `kMinibatchSize` of them, and each is a valid buffer position. -/
theorem Update_sample_distinct (d : DQN)
    (h : kMinibatchSize ≤ d.memory_size) :
    (updateSample d).1.Nodup ∧
    (updateSample d).1.length = kMinibatchSize ∧
    ∀ i ∈ (updateSample d).1, i < d.replay_memory_.length := by
  unfold updateSample sampleIndices
  refine ⟨sampleFrom_nodup _ _ _ (List.nodup_range _), ?_, ?_⟩
  · exact sampleFrom_length _ _ _ (by simpa using h)
  · intro i hi
    exact List.mem_range.1 (sampleFrom_mem _ _ _ _ hi)

/-- C8 witness: the 32-transition agent again — its sampled positions are
pairwise distinct. -/
theorem Update_sample_distinct_witness :
    kMinibatchSize ≤
      ({ mkDQN [] 0 100 1 with
          replay_memory_ := List.replicate 32 defaultTransition } :
        DQN).memory_size ∧
    ((updateSample { mkDQN [] 0 100 1 with
        replay_memory_ := List.replicate 32 defaultTransition }).1.Nodup ∧
     (updateSample { mkDQN [] 0 100 1 with
        replay_memory_ := List.replicate 32 defaultTransition }).1.length =
       kMinibatchSize ∧
     ∀ i ∈ (updateSample { mkDQN [] 0 100 1 with
        replay_memory_ := List.replicate 32 defaultTransition }).1,
       i < ({ mkDQN [] 0 100 1 with
          replay_memory_ := List.replicate 32 defaultTransition } :
         DQN).replay_memory_.length) :=
  ⟨by decide,
   Update_sample_distinct
     { mkDQN [] 0 100 1 with
         replay_memory_ := List.replicate 32 defaultTransition }
     (by decide)⟩

/-! ## Epsilon-greedy lemmas (C7) and determinism (C9) -/

theorem drawUnit_nonneg (g : RandomEngine) : 0 ≤ (drawUnit g).1 := by
  simp only [drawUnit]
  exact div_nonneg (Nat.cast_nonneg _) (Nat.cast_nonneg _)

theorem SelectAction_eps0_branch (evalQ : QEval) (frames : InputFrames)
    (dx : DQN) :
    DQN.SelectAction evalQ dx frames 0 =
      ((SelectActionGreedily evalQ dx.net_ dx.legal_actions_ frames).1,
       { dx with random_engine := (drawUnit dx.random_engine).2 }) := by
  simp only [DQN.SelectAction]
  rw [if_neg (not_lt.2 (drawUnit_nonneg dx.random_engine))]

/-- C7: with epsilon = 0, `SelectAction` never takes the random exploration
branch — the engine advances by exactly the one `[0,1)` draw — and returns
the greedy choice: a legal action of maximal evaluated value under the
lowest-index tie-break; the returned action is a function of the state and
the live parameters only (two agents with equal nets and equal legal action
sets select the same action). -/
theorem SelectAction_eps0 (evalQ : QEval) (d : DQN) (frames : InputFrames)
    (hlegal : d.legal_actions_ ≠ []) :
    (DQN.SelectAction evalQ d frames 0).1 =
      (SelectActionGreedily evalQ d.net_ d.legal_actions_ frames).1 ∧
    (DQN.SelectAction evalQ d frames 0).2.random_engine =
      (drawUnit d.random_engine).2 ∧
    (DQN.SelectAction evalQ d frames 0).1 ∈ d.legal_actions_ ∧
    (∀ a ∈ d.legal_actions_, evalQ d.net_ frames a ≤
      evalQ d.net_ frames (DQN.SelectAction evalQ d frames 0).1) ∧
    ∀ d2 : DQN, d2.net_ = d.net_ → d2.legal_actions_ = d.legal_actions_ →
      (DQN.SelectAction evalQ d2 frames 0).1 =
        (DQN.SelectAction evalQ d frames 0).1 := by
  rcases SelectActionGreedily_spec evalQ d.net_ d.legal_actions_ frames hlegal
    with ⟨hin, hval, hmax⟩
  rw [SelectAction_eps0_branch evalQ frames d]
  refine ⟨rfl, rfl, hin, ?_, ?_⟩
  · intro a ha
    rw [hval]
    exact hmax a ha
  · intro d2 h1 h2
    rw [SelectAction_eps0_branch evalQ frames d2, h1, h2]

/-- C7 witness: a two-action agent with evaluator `a ↦ a` — with epsilon 0
the selected action is the greedy one. -/
theorem SelectAction_eps0_witness :
    (((mkDQN [⟨0, by decide⟩, ⟨1, by decide⟩] 0 10 1).Initialize
        [5]).legal_actions_ ≠ []) ∧
    (DQN.SelectAction (fun _ _ a => (a.val : ℚ))
        ((mkDQN [⟨0, by decide⟩, ⟨1, by decide⟩] 0 10 1).Initialize [5])
        defaultTransition.state 0).1 =
      (SelectActionGreedily (fun _ _ a => (a.val : ℚ))
        ((mkDQN [⟨0, by decide⟩, ⟨1, by decide⟩] 0 10 1).Initialize
          [5]).net_
        ((mkDQN [⟨0, by decide⟩, ⟨1, by decide⟩] 0 10 1).Initialize
          [5]).legal_actions_
        defaultTransition.state).1 :=
  ⟨by decide,
   (SelectAction_eps0 (fun _ _ a => (a.val : ℚ))
     ((mkDQN [⟨0, by decide⟩, ⟨1, by decide⟩] 0 10 1).Initialize [5])
     defaultTransition.state (by decide)).1⟩

/-- C9: the engine is seeded with the hard-coded constant 0 at construction
(src/dqn.hpp line 52, `random_engine(0)`): the constructed engine state is
`RandomEngine.init 0` whatever the configuration, and two agents built with
the same legal action set, solver parameter, capacity, gamma and initial
parameters, driven through the same call sequence, produce identical states
and identical observable outcomes (action selections and minibatch
samples). -/
theorem construction_seed_deterministic (la : List Action) (sp cap : Nat)
    (g : ℚ) (p : List ℚ) (evalQ : QEval) (stepFn : StepFn)
    (ops : List DQNOp) (d1 d2 : DQN)
    (h1 : d1 = (mkDQN la sp cap g).Initialize p)
    (h2 : d2 = (mkDQN la sp cap g).Initialize p) :
    (mkDQN la sp cap g).random_engine = RandomEngine.init 0 ∧
    (∀ (la2 : List Action) (sp2 cap2 : Nat) (g2 : ℚ),
      (mkDQN la sp cap g).random_engine =
        (mkDQN la2 sp2 cap2 g2).random_engine) ∧
    runOps evalQ stepFn d1 ops = runOps evalQ stepFn d2 ops := by
  subst h1
  subst h2
  exact ⟨rfl, fun _ _ _ _ => rfl, rfl⟩

/-- C9 witness: two identically configured agents driven through a
synchronize call behave identically. -/
theorem construction_seed_deterministic_witness :
    ((mkDQN [] 0 3 1).Initialize [1] = (mkDQN [] 0 3 1).Initialize [1]) ∧
    ((mkDQN [] 0 3 1).random_engine = RandomEngine.init 0 ∧
     (∀ (la2 : List Action) (sp2 cap2 : Nat) (g2 : ℚ),
       (mkDQN [] 0 3 1).random_engine =
         (mkDQN la2 sp2 cap2 g2).random_engine) ∧
     runOps (fun _ _ _ => 0) (fun ps _ _ _ => ps)
         ((mkDQN [] 0 3 1).Initialize [1]) [DQNOp.sync] =
       runOps (fun _ _ _ => 0) (fun ps _ _ _ => ps)
         ((mkDQN [] 0 3 1).Initialize [1]) [DQNOp.sync]) :=
  ⟨rfl,
   construction_seed_deterministic [] 0 3 1 [1] (fun _ _ _ => 0)
     (fun ps _ _ _ => ps) [DQNOp.sync] _ _ rfl rfl⟩

end DQNModel
